import Mathlib

/-!
Verification development for the clawdbot-feishu bridge.

The embedding covers the two core modules:

* `src/monitor.ts` — realtime session supervisor: session-generation counter,
  time-bounded dedup cache, and the `im.message.receive_v1` event handler.
* `src/reply-dispatcher.ts` — per-reply card state machine: fragment
  accumulation, debounced card patching, table-suppression, finalize and the
  standalone/plain fallback chain.

Stateful code is embedded as explicit state passing.  Network calls are
modelled by appending an entry to an observable trace, with the outcome of
each fallible call (card send / card update) supplied by an oracle
environment indexed by the number of network calls issued so far.  Rendered
card JSON is tracked through its reply-body component (the `replyMarkdown`
field of `buildUnifiedCard`); the thinking-panel markdown, which no property
below inspects, is elided from the trace.  Timestamps (`Date.now()`) are
naturals supplied by the environment.
-/

namespace Feishu

/-! ## Monitor (src/monitor.ts) -/

/-- `DEDUP_TTL_MS = 60 * 60 * 1000` (60 minutes), from monitor.ts line 20. -/
def DEDUP_TTL_MS : Nat := 60 * 60 * 1000

/-- Module-level monitor state: the dedup map `processedMessages`
(a JS `Map` from message id to first-seen timestamp, in insertion order)
and the session-generation counter `activeSessionId`. -/
structure MonitorState where
  processedMessages : List (String × Nat)
  activeSessionId : Nat
deriving Repr, DecidableEq

/-- `processedMessages.has(id)` on the association-list model of a JS Map. -/
def mapHas (msgs : List (String × Nat)) (id : String) : Bool :=
  msgs.any (fun e => e.1 == id)

/-- `processedMessages.set(id, ts)`: JS `Map.set` updates an existing key in
place and otherwise appends in insertion order. -/
def mapSet (msgs : List (String × Nat)) (id : String) (ts : Nat) :
    List (String × Nat) :=
  if mapHas msgs id then
    msgs.map (fun e => if e.1 == id then (e.1, ts) else e)
  else
    msgs ++ [(id, ts)]

/-- `pruneProcessedMessages(now)` (monitor.ts lines 24-28): delete every
entry with `now - ts > DEDUP_TTL_MS`.  JS number subtraction is negative when
`ts > now` (so such entries are kept); Nat truncated subtraction yields `0`
there, which agrees. -/
def pruneProcessedMessages (now : Nat) (msgs : List (String × Nat)) :
    List (String × Nat) :=
  msgs.filter (fun e => !(decide (now - e.2 > DEDUP_TTL_MS)))

/-- The `im.message.receive_v1` handler (monitor.ts lines 122-149), restricted
to its synchronous prefix.  Returns the updated state together with a flag
that is `true` exactly when control reaches the `await handleFeishuMessage`
forward to the agent boundary.  The returned state is computed before the
forward happens: the dedup insertion precedes any asynchronous work.
`msgId = none` models an event whose `event.message?.message_id` is absent;
such events bypass dedup. -/
def receiveMessageHandler (mySessionId : Nat) (msgId : Option String)
    (now : Nat) (st : MonitorState) : MonitorState × Bool :=
  if mySessionId ≠ st.activeSessionId then (st, false)
  else
    match msgId with
    | none => (st, true)
    | some m =>
      if mapHas st.processedMessages m then (st, false)
      else
        let msgs := mapSet st.processedMessages m now
        let msgs := if msgs.length > 200 then pruneProcessedMessages now msgs
                    else msgs
        ({ st with processedMessages := msgs }, true)

/-- The session-advancing prefix of `monitorWebSocket` (monitor.ts lines
104-105): increment `activeSessionId` and capture it as `mySessionId` for the
handlers registered by this connection. -/
def monitorWebSocketStart (st : MonitorState) : MonitorState × Nat :=
  ({ st with activeSessionId := st.activeSessionId + 1 },
   st.activeSessionId + 1)

/-- `stopFeishuMonitor` (monitor.ts lines 207-213): increment
`activeSessionId`, invalidating all running handlers.  (The force-stop of the
WebSocket client is best-effort teardown with no effect on this state.) -/
def stopFeishuMonitor (st : MonitorState) : MonitorState :=
  { st with activeSessionId := st.activeSessionId + 1 }

/-- The operations that touch the module-level monitor state. -/
inductive MonOp where
  | receive (mySessionId : Nat) (msgId : Option String) (now : Nat)
  | start
  | stop
deriving Repr

/-- State transition of a single monitor operation. -/
def monStep (op : MonOp) (st : MonitorState) : MonitorState :=
  match op with
  | .receive g m t => (receiveMessageHandler g m t st).1
  | .start => (monitorWebSocketStart st).1
  | .stop => stopFeishuMonitor st

/-- Run a sequence of `im.message.receive_v1` deliveries
`(mySessionId, msgId, now)` through the handler. -/
def monRunReceives (evs : List (Nat × Option String × Nat))
    (st : MonitorState) : MonitorState :=
  evs.foldl (fun s e => (receiveMessageHandler e.1 e.2.1 e.2.2 s).1) st

/-! ## Reply dispatcher (src/reply-dispatcher.ts) -/

/-- `STREAMING_CURSOR` (reply-dispatcher.ts line 51): a space followed by the
left-five-eighths block glyph. -/
def STREAMING_CURSOR : String := " ▍"

/-- `DEFAULT_PATCH_INTERVAL_MS` (line 52). -/
def DEFAULT_PATCH_INTERVAL_MS : Nat := 500

/-- `DEFAULT_THINKING_UPDATE_INTERVAL_MS` (line 53). -/
def DEFAULT_THINKING_UPDATE_INTERVAL_MS : Nat := 800

/-- `patchIntervalMs := feishuCfg?.streaming?.patchIntervalMs ?? 500`
(line 236): resolve the configured patch interval against the default. -/
def resolvePatchIntervalMs (configured : Option Nat) : Nat :=
  configured.getD DEFAULT_PATCH_INTERVAL_MS

/-- A character of the `[\r\n]` class. -/
def charIsNewline (c : Char) : Bool := c == '\r' || c == '\n'

/-- A character of the `[-:| ]` class. -/
def charIsTableSep (c : Char) : Bool :=
  c == '-' || c == ':' || c == '|' || c == ' '

/-- Does the list start with a literal `|`?  (Used for the `\|` atoms of the
table regex.) -/
def startsWithBar : List Char → Bool
  | '|' :: _ => true
  | _ => false

/-- Match `[-:| ]+\|` against a prefix of the list: at least one separator
character, then a literal bar (which may itself be one of the consumed
separator characters at an earlier split — existence over all splits). -/
def sepPlusBar : List Char → Bool
  | [] => false
  | c :: rest => charIsTableSep c && (startsWithBar rest || sepPlusBar rest)

/-- Match `\|[-:| ]+\|` against a prefix of the list. -/
def barSepPlusBar : List Char → Bool
  | '|' :: rest => sepPlusBar rest
  | _ => false

/-- Match `[\r\n]+\|[-:| ]+\|` against a prefix of the list. -/
def nlPlusBarSep : List Char → Bool
  | [] => false
  | c :: rest => charIsNewline c && (barSepPlusBar rest || nlPlusBarSep rest)

/-- Match `\|[\r\n]+\|[-:| ]+\|` against a prefix of the list. -/
def barNlPlus : List Char → Bool
  | '|' :: rest => nlPlusBarSep rest
  | _ => false

/-- Match `.+\|[\r\n]+\|[-:| ]+\|` against a prefix of the list (`.` matches
any character except a line terminator). -/
def dotPlusBarNl : List Char → Bool
  | [] => false
  | c :: rest => !charIsNewline c && (barNlPlus rest || dotPlusBarNl rest)

/-- Search the list for a match of the full pattern
`\|.+\|[\r\n]+\|[-:| ]+\|` starting at any position. -/
def tableSearch : List Char → Bool
  | [] => false
  | c :: rest => (c == '|' && dotPlusBarNl rest) || tableSearch rest

/-- `hasMarkdownTable` (lines 38-40): `/\|.+\|[\r\n]+\|[-:| ]+\|/.test(text)`
— the text contains a table header row followed by a separator row. -/
def hasMarkdownTable (text : String) : Bool :=
  tableSearch text.data

/-- Split off the maximal prefix of characters matching `[^\n]` (anything but
a line feed). -/
def splitNoNL : List Char → List Char × List Char
  | [] => ([], [])
  | c :: cs =>
    if c == '\n' then ([], c :: cs)
    else
      let p := splitNoNL cs
      (c :: p.1, p.2)

theorem splitNoNL_snd_length (l : List Char) : (splitNoNL l).2.length ≤ l.length := by
  induction l with
  | nil => simp [splitNoNL]
  | cons c cs ih =>
    by_cases h : c == '\n'
    · simp [splitNoNL, h]
    · simp only [splitNoNL, h, Bool.false_eq_true, if_false, List.length_cons]
      omega

set_option linter.unusedVariables false in
/-- Left-to-right global scan of `text.replace(/(\|[^\n]*\|)\n\n(?=\|)/g,
"$1\n")`.  At a position holding `|`, the greedy `[^\n]*` forces the group's
closing `|` to sit at the end of the maximal `[^\n]` run (the next character
must be the first `\n` of the pattern), so a match exists exactly when that
run ends in `|` and is followed by `\n\n|`.  The replacement emits the group
plus a single `\n` and the scan resumes at the look-ahead `|`. -/
def repairScan (l : List Char) : List Char :=
  match l with
  | [] => []
  | c :: rest =>
    if c == '|' then
      match h : splitNoNL rest with
      | (run, tail) =>
        match tail with
        | '\n' :: '\n' :: '|' :: more =>
          if run.getLast? = some '|' then
            '|' :: (run ++ '\n' :: repairScan ('|' :: more))
          else
            c :: repairScan rest
        | _ => c :: repairScan rest
    else c :: repairScan rest
termination_by l.length
decreasing_by
  · have hle : (splitNoNL rest).2.length ≤ rest.length := splitNoNL_snd_length rest
    rw [h] at hle
    simp at hle ⊢
    omega
  · simp
  · simp
  · simp

/-- `repairMarkdownTables` (lines 46-49): collapse `\n\n` between markdown
table rows back to `\n`. -/
def repairMarkdownTables (text : String) : String :=
  ⟨repairScan text.data⟩

/-- `s.endsWith("\n")` — the argument is the single line-feed character,
so this is a test of the string's last character. -/
def endsWithNewline (s : String) : Bool := s.data.getLast? == some '\n'

/-- `s.startsWith("\n")` — a test of the string's first character. -/
def startsWithNewline (s : String) : Bool := s.data.head? == some '\n'

/-- The blank test applied by the dispatcher to delivered text:
`text.trim()` is falsy in JS exactly when every character of `text` is
whitespace (trimming removes leading/trailing whitespace, so the trimmed
string is empty iff nothing else occurs).  All uses of `.trim()` in
reply-dispatcher.ts are such emptiness checks. -/
def isBlank (text : String) : Bool :=
  text.data.all Char.isWhitespace

/-- `ToolEntry` (line 98).  The `args` record feeds only the elided
thinking-panel markdown and is omitted. -/
structure ToolEntry where
  name : String
  startedAt : Nat
deriving Repr, DecidableEq

/-- `CompletedToolEntry` (line 99). -/
structure CompletedToolEntry where
  name : String
  startedAt : Nat
  failed : Bool
deriving Repr, DecidableEq

/-- `activeTools.get(id)` on the association-list model of a JS Map. -/
def toolsGet (tools : List (String × ToolEntry)) (id : String) :
    Option ToolEntry :=
  (tools.find? (fun e => e.1 == id)).map (·.2)

/-- `activeTools.set(id, entry)` (update in place or append). -/
def toolsSet (tools : List (String × ToolEntry)) (id : String)
    (entry : ToolEntry) : List (String × ToolEntry) :=
  if tools.any (fun e => e.1 == id) then
    tools.map (fun e => if e.1 == id then (e.1, entry) else e)
  else
    tools ++ [(id, entry)]

/-- `activeTools.delete(id)`. -/
def toolsDelete (tools : List (String × ToolEntry)) (id : String) :
    List (String × ToolEntry) :=
  tools.filter (fun e => !(e.1 == id))

/-- An observable network call issued by the dispatcher, tagged by call site.
`createCard` is `sendCardFeishu` inside `patchCard`; `updateCard` is
`updateCardFeishu` (from `patchCard` or `doDeliverFinalReply`);
`standaloneCard` is `sendCardFeishu` inside `deliverStandalone`; `sendText`
is one `sendMessageFeishu` chunk of the plain-text last resort.  The `reply`
payload is the card's reply-body markdown (`replyMarkdown`). -/
inductive NetCall where
  | createCard (reply : Option String)
  | updateCard (messageId : String) (reply : Option String)
  | standaloneCard (text : String)
  | sendText (chunk : String)
deriving Repr, DecidableEq

/-- Oracle environment for one dispatcher operation: the current clock, the
resolved configuration (`patchIntervalMs`, `showCursor`), the outcome of each
fallible network call (indexed by how many calls were issued before it;
`sendCardResult n = some id` means the n-th call — when it is a card send —
resolves with that message id, `none` means it throws), and the external
SDK chunker used by the plain-text fallback. -/
structure Env where
  now : Nat
  patchIntervalMs : Nat
  showCursor : Bool
  sendCardResult : Nat → Option String
  updateCardOk : Nat → Bool
  chunkText : String → List String

/-- Per-reply dispatcher state (reply-dispatcher.ts lines 240-254 and 376),
plus the observable trace of network calls.  `cardCreationPromise` only
serializes overlapping patch attempts; in this sequential model every call
runs to completion, so the field is elided.  `pendingPatchTimer` holds the
delay of the single pending debounce timer, if any. -/
structure DispState where
  cardMessageId : Option String
  accumulatedText : String
  lastPatchTime : Nat
  pendingPatchTimer : Option Int
  streamingFailed : Bool
  thinkingText : Option String
  activeTools : List (String × ToolEntry)
  completedTools : List CompletedToolEntry
  thinkingStopped : Bool
  hasThinkingContent : Bool
  thinkingStartedAt : Option Nat
  standaloneDelivered : Bool
  trace : List NetCall
deriving Repr, DecidableEq

/-- The initial per-reply state (the variable initializers of
`createFeishuReplyDispatcher`). -/
def initDispState : DispState where
  cardMessageId := none
  accumulatedText := ""
  lastPatchTime := 0
  pendingPatchTimer := none
  streamingFailed := false
  thinkingText := none
  activeTools := []
  completedTools := []
  thinkingStopped := false
  hasThinkingContent := false
  thinkingStartedAt := none
  standaloneDelivered := false
  trace := []

/-- The reply-body component of `buildCurrentCard` (lines 258-260):
`accumulatedText ? repairMarkdownTables(accumulatedText) + cursor :
undefined` with `cursor = isFinal || !showCursor ? "" : STREAMING_CURSOR`. -/
def buildCurrentCardReply (showCursor : Bool) (isFinal : Bool)
    (acc : String) : Option String :=
  if acc == "" then none
  else some (repairMarkdownTables acc ++
    (if isFinal || !showCursor then "" else STREAMING_CURSOR))

/-- `patchCard(isFinal)` (lines 275-311).  Early returns: streaming already
failed, or a non-final patch while the accumulated text contains a markdown
table.  Otherwise: create the card when none exists (a creation failure sets
`streamingFailed`, since `cardMessageId` is still null in the catch), or
update the existing card (an update failure is logged only). -/
def patchCard (env : Env) (isFinal : Bool) (st : DispState) : DispState :=
  if st.streamingFailed then st
  else if !isFinal && !(st.accumulatedText == "") &&
      hasMarkdownTable st.accumulatedText then st
  else
    let reply := buildCurrentCardReply env.showCursor isFinal st.accumulatedText
    match st.cardMessageId with
    | none =>
      match env.sendCardResult st.trace.length with
      | some mid =>
        { st with trace := st.trace ++ [NetCall.createCard reply],
                  cardMessageId := some mid,
                  lastPatchTime := env.now }
      | none =>
        { st with trace := st.trace ++ [NetCall.createCard reply],
                  streamingFailed := true }
    | some mid =>
      if env.updateCardOk st.trace.length then
        { st with trace := st.trace ++ [NetCall.updateCard mid reply],
                  lastPatchTime := env.now }
      else
        { st with trace := st.trace ++ [NetCall.updateCard mid reply] }

/-- The delay computed by `schedulePatch` (line 315):
`Math.max(0, patchIntervalMs - (Date.now() - lastPatchTime))` over JS
numbers, hence signed arithmetic. -/
def patchDelay (patchIntervalMs now lastPatchTime : Nat) : Int :=
  max 0 ((patchIntervalMs : Int) - ((now : Int) - (lastPatchTime : Int)))

/-- `schedulePatch` (lines 313-322): a no-op while a timer is already
pending, otherwise arm the single debounce timer with `patchDelay`. -/
def schedulePatch (env : Env) (st : DispState) : DispState :=
  match st.pendingPatchTimer with
  | some _ => st
  | none =>
    let d := patchDelay env.patchIntervalMs env.now st.lastPatchTime
    { st with pendingPatchTimer := some d }

/-- The body of the debounce timer callback (lines 316-321): clear the timer
slot, then perform a non-final patch unless streaming has already failed.
A no-op when no timer is pending (the callback cannot fire). -/
def firePendingPatch (env : Env) (st : DispState) : DispState :=
  match st.pendingPatchTimer with
  | none => st
  | some _ =>
    let st := { st with pendingPatchTimer := none }
    if !st.streamingFailed then patchCard env false st else st

/-- `clearPendingPatch` (lines 324-326). -/
def clearPendingPatch (st : DispState) : DispState :=
  { st with pendingPatchTimer := none }

/-- `triggerThinkingUpdate` (lines 328-338): gated on `thinkingStopped`;
records that thinking content exists and the thinking start time, then
patches immediately when at least `DEFAULT_THINKING_UPDATE_INTERVAL_MS` has
passed since the last patch, otherwise schedules a debounced patch. -/
def triggerThinkingUpdate (env : Env) (st : DispState) : DispState :=
  if st.thinkingStopped then st
  else
    let st := { st with
      hasThinkingContent := true,
      thinkingStartedAt :=
        match st.thinkingStartedAt with
        | some t => some t
        | none => some env.now }
    if env.now - st.lastPatchTime ≥ DEFAULT_THINKING_UPDATE_INTERVAL_MS then
      patchCard env false st
    else
      schedulePatch env st

/-- `deliverStandalone(text)` (lines 350-370): send the text as a standalone
card; if that throws, convert tables and chunk the text, then send each chunk
as plain text. -/
def deliverStandalone (env : Env) (text : String) (st : DispState) :
    DispState :=
  match env.sendCardResult st.trace.length with
  | some _ => { st with trace := st.trace ++ [NetCall.standaloneCard text] }
  | none =>
    let st := { st with trace := st.trace ++ [NetCall.standaloneCard text] }
    { st with trace := st.trace ++ (env.chunkText text).map NetCall.sendText }

/-- `doDeliverFinalReply` (lines 379-409): no-op on blank accumulated text;
with a card, force thinking collapsed and issue one full-replace update whose
reply body is the full accumulated text, falling back to standalone delivery
(guarded by `standaloneDelivered`) when the update throws; without a card, go
straight to the guarded standalone delivery. -/
def doDeliverFinalReply (env : Env) (st : DispState) : DispState :=
  let fullText := st.accumulatedText
  if isBlank fullText then st
  else
    match st.cardMessageId with
    | some mid =>
      let st := { st with thinkingStopped := true }
      if env.updateCardOk st.trace.length then
        { st with trace := st.trace ++ [NetCall.updateCard mid (some fullText)] }
      else
        let st := { st with trace := st.trace ++ [NetCall.updateCard mid (some fullText)] }
        if !st.standaloneDelivered then
          deliverStandalone env fullText { st with standaloneDelivered := true }
        else st
    | none =>
      if !st.standaloneDelivered then
        deliverStandalone env fullText { st with standaloneDelivered := true }
      else st

/-- `dispatcherOptions.deliver` (lines 416-440), with `kind` already resolved
per `info.kind ?? "final"` and `text` per `payload.text ?? ""`: discard blank
payloads; collapse thinking and cancel the pending patch timer on first reply
content; append the text to `accumulatedText`, inserting a separating newline
when the accumulated text is nonempty, does not end with a newline, and the
new text does not start with one; finally, a `"final"` kind triggers
`doDeliverFinalReply`. -/
def deliver (env : Env) (text : String) (kind : String) (st : DispState) :
    DispState :=
  if isBlank text then st
  else
    let st :=
      if !st.thinkingStopped then
        { st with thinkingStopped := true, pendingPatchTimer := none }
      else st
    let st :=
      if !(st.accumulatedText == "") && !(endsWithNewline st.accumulatedText) &&
          !(startsWithNewline text) then
        { st with accumulatedText := st.accumulatedText ++ "\n" ++ text }
      else
        { st with accumulatedText := st.accumulatedText ++ text }
    if kind == "final" then doDeliverFinalReply env st else st

/-- `dispatcherOptions.onIdle` (lines 450-461): cancel the pending timer,
force thinking stopped, and deliver any remaining accumulated text. -/
def onIdle (env : Env) (st : DispState) : DispState :=
  let st := clearPendingPatch st
  let st := { st with thinkingStopped := true }
  if !(isBlank st.accumulatedText) then doDeliverFinalReply env st else st

/-- `replyOptions.onReasoningStream` (lines 468-473): on a truthy payload
text, store the snapshot into `thinkingText` and call
`triggerThinkingUpdate`. -/
def onReasoningStream (env : Env) (text : Option String) (st : DispState) :
    DispState :=
  match text with
  | some t =>
    if !(t == "") then
      triggerThinkingUpdate env { st with thinkingText := some t }
    else st
  | none => st

/-- `replyOptions.onAgentEvent` (lines 474-494), restricted to the `tool`
stream: a `start` phase with a truthy tool-call id registers the tool and
triggers a thinking update; a `result` phase moves the entry (when present)
to `completedTools` tagged with its outcome and triggers a thinking
update. -/
def onAgentEvent (env : Env) (stream phase toolCallId name : String)
    (isError : Bool) (st : DispState) : DispState :=
  if stream == "tool" then
    if phase == "start" && !(toolCallId == "") then
      triggerThinkingUpdate env
        { st with activeTools :=
            toolsSet st.activeTools toolCallId ⟨name, env.now⟩ }
    else if phase == "result" && !(toolCallId == "") then
      let st :=
        match toolsGet st.activeTools toolCallId with
        | some entry =>
          { st with activeTools := toolsDelete st.activeTools toolCallId,
                    completedTools := st.completedTools ++
                      [⟨entry.name, entry.startedAt, isError⟩] }
        | none => st
      triggerThinkingUpdate env st
    else st
  else st

/-- `markDispatchIdle` (lines 500-509): cancel the pending timer; on the
first idle, stop thinking and, when a card with thinking content exists,
issue one more non-final patch. -/
def markDispatchIdle (env : Env) (st : DispState) : DispState :=
  let st := clearPendingPatch st
  if !st.thinkingStopped then
    let st := { st with thinkingStopped := true }
    if st.cardMessageId.isSome && st.hasThinkingContent then
      patchCard env false st
    else st
  else st

/-- Every externally triggered dispatcher operation. -/
inductive DispOp where
  | deliver (text kind : String)
  | reasoning (text : Option String)
  | agentEvent (stream phase toolCallId name : String) (isError : Bool)
  | timerFire
  | idle
  | markIdle
deriving Repr

/-- State transition of a single dispatcher operation. -/
def dispStep (env : Env) (op : DispOp) (st : DispState) : DispState :=
  match op with
  | .deliver text kind => deliver env text kind st
  | .reasoning text => onReasoningStream env text st
  | .agentEvent s p id n e => onAgentEvent env s p id n e st
  | .timerFire => firePendingPatch env st
  | .idle => onIdle env st
  | .markIdle => markDispatchIdle env st

/-! ## Helper lemmas: monitor -/

theorem mapHas_of_mem {msgs : List (String × Nat)} {m : String} {ts : Nat}
    (h : (m, ts) ∈ msgs) : mapHas msgs m = true := by
  simp only [mapHas, List.any_eq_true]
  exact ⟨(m, ts), h, by simp⟩

theorem mem_pruneProcessedMessages {now : Nat} {msgs : List (String × Nat)}
    {m : String} {ts : Nat} :
    (m, ts) ∈ pruneProcessedMessages now msgs ↔
      (m, ts) ∈ msgs ∧ now - ts ≤ DEDUP_TTL_MS := by
  simp only [pruneProcessedMessages, List.mem_filter, Bool.not_eq_true',
    decide_eq_false_iff_not, not_lt]

theorem receiveMessageHandler_activeSessionId (g : Nat) (msg : Option String)
    (now : Nat) (st : MonitorState) :
    ((receiveMessageHandler g msg now st).1).activeSessionId =
      st.activeSessionId := by
  unfold receiveMessageHandler
  split
  · rfl
  · match msg with
    | none => rfl
    | some m =>
      simp only
      split
      · rfl
      · rfl

theorem receive_preserves_entry (g : Nat) (msg : Option String) (now : Nat)
    (st : MonitorState) {m : String} {ts : Nat}
    (hmem : (m, ts) ∈ st.processedMessages)
    (hin : now ≤ ts + DEDUP_TTL_MS) :
    (m, ts) ∈ ((receiveMessageHandler g msg now st).1).processedMessages := by
  unfold receiveMessageHandler
  split
  · exact hmem
  · match msg with
    | none => exact hmem
    | some m' =>
      simp only
      split
      · exact hmem
      · rename_i hhas
        simp only
        have hset : (m, ts) ∈ mapSet st.processedMessages m' now := by
          unfold mapSet
          rw [if_neg (by simp [hhas])]
          exact List.mem_append_left _ hmem
        split
        · exact mem_pruneProcessedMessages.mpr ⟨hset, by omega⟩
        · exact hset

theorem monRunReceives_preserves_entry
    (evs : List (Nat × Option String × Nat)) (st : MonitorState)
    {m : String} {ts : Nat}
    (hmem : (m, ts) ∈ st.processedMessages)
    (hin : ∀ e ∈ evs, e.2.2 ≤ ts + DEDUP_TTL_MS) :
    (m, ts) ∈ (monRunReceives evs st).processedMessages := by
  induction evs generalizing st with
  | nil => exact hmem
  | cons e rest ih =>
    exact ih _
      (receive_preserves_entry e.1 e.2.1 e.2.2 st hmem
        (hin e (List.mem_cons_self _ _)))
      (fun e' he' => hin e' (List.mem_cons_of_mem _ he'))

theorem receive_fresh_forwards (g : Nat) (m : String) (now : Nat)
    (st : MonitorState) (hsess : g = st.activeSessionId)
    (hfresh : mapHas st.processedMessages m = false) :
    (receiveMessageHandler g (some m) now st).2 = true := by
  unfold receiveMessageHandler
  rw [if_neg (by omega)]
  simp only [hfresh]
  rw [if_neg (by simp)]

theorem receive_dup_noop (g : Nat) (m : String) (now : Nat)
    (st : MonitorState) (hhas : mapHas st.processedMessages m = true) :
    receiveMessageHandler g (some m) now st = (st, false) := by
  unfold receiveMessageHandler
  split
  · rfl
  · simp [hhas]

/-! ## Monitor claims -/

/-- Claim C1: for an inbound message with identifier `m` that is not yet in
the dedup map, a delivery to the `im.message.receive_v1` handler with a
matching session generation forwards to `handleFeishuMessage` and records
`(m, now)` in the dedup map (synchronously, before the forward).  After any
further handler deliveries occurring within the 60-minute TTL window of the
first, a second delivery of the same `m` within that window leaves the state
unchanged and does not forward — exactly one forwarded call for `m`. -/
theorem claim_C1_dedup (g t1 : Nat) (m : String) (st : MonitorState)
    (hsess : g = st.activeSessionId)
    (hfresh : mapHas st.processedMessages m = false) :
    (receiveMessageHandler g (some m) t1 st).2 = true ∧
    (m, t1) ∈ ((receiveMessageHandler g (some m) t1 st).1).processedMessages ∧
    (∀ evs : List (Nat × Option String × Nat),
      (∀ e ∈ evs, e.2.2 ≤ t1 + DEDUP_TTL_MS) →
      ∀ g2 t2 : Nat, t2 ≤ t1 + DEDUP_TTL_MS →
        receiveMessageHandler g2 (some m) t2
            (monRunReceives evs (receiveMessageHandler g (some m) t1 st).1) =
          (monRunReceives evs (receiveMessageHandler g (some m) t1 st).1,
           false)) := by
  have hmem : (m, t1) ∈
      ((receiveMessageHandler g (some m) t1 st).1).processedMessages := by
    unfold receiveMessageHandler
    rw [if_neg (by omega)]
    simp only [hfresh]
    rw [if_neg (by simp)]
    have hset : (m, t1) ∈ mapSet st.processedMessages m t1 := by
      unfold mapSet
      rw [if_neg (by simp [hfresh])]
      exact List.mem_append_right _ (List.mem_singleton.mpr rfl)
    simp only
    split
    · exact mem_pruneProcessedMessages.mpr ⟨hset, by omega⟩
    · exact hset
  refine ⟨?_, hmem, ?_⟩
  · unfold receiveMessageHandler
    rw [if_neg (by omega)]
    simp only [hfresh]
    rw [if_neg (by simp)]
  · intro evs hevs g2 t2 ht2
    have hpers : (m, t1) ∈
        (monRunReceives evs
          (receiveMessageHandler g (some m) t1 st).1).processedMessages :=
      monRunReceives_preserves_entry evs _ hmem
        (fun e he => by simpa using hevs e he)
    exact receive_dup_noop g2 m t2 _ (mapHas_of_mem hpers)

/-- Witness for C1 at a concrete input: a fresh message `"msg1"` at time 100
is forwarded once; after an unrelated delivery at time 200, redelivering
`"msg1"` at time 1000 (within the TTL) does not forward. -/
theorem claim_C1_dedup_witness :
    (receiveMessageHandler 1 (some "msg1") 100 ⟨[], 1⟩).2 = true ∧
    receiveMessageHandler 1 (some "msg1") 1000
        (monRunReceives [(1, some "other", 200)]
          (receiveMessageHandler 1 (some "msg1") 100 ⟨[], 1⟩).1) =
      (monRunReceives [(1, some "other", 200)]
        (receiveMessageHandler 1 (some "msg1") 100 ⟨[], 1⟩).1, false) := by
  have h := claim_C1_dedup 1 100 "msg1" ⟨[], 1⟩ rfl (by decide)
  exact ⟨h.1, h.2.2 [(1, some "other", 200)] (by decide) 1 1000 (by decide)⟩

/-- Claim C3: once the session counter has advanced past a handler's
captured generation, that handler is a permanent no-op — it returns the
state unchanged (in particular the dedup cache is untouched) and does not
forward; both a second `monitorWebSocket` start and `stopFeishuMonitor`
advance the counter by one (so a previously captured generation differs from
it); and no monitor operation ever brings the counter back down to a retired
generation. -/
theorem claim_C3_stale_session :
    (∀ (g : Nat) (msg : Option String) (now : Nat) (st : MonitorState),
      g ≠ st.activeSessionId →
      receiveMessageHandler g msg now st = (st, false)) ∧
    (∀ st : MonitorState,
      ((monitorWebSocketStart st).1).activeSessionId =
          st.activeSessionId + 1 ∧
      (monitorWebSocketStart st).2 = st.activeSessionId + 1 ∧
      (stopFeishuMonitor st).activeSessionId = st.activeSessionId + 1) ∧
    (∀ (g : Nat) (st : MonitorState) (op : MonOp),
      g < st.activeSessionId → g < (monStep op st).activeSessionId) := by
  refine ⟨?_, ?_, ?_⟩
  · intro g msg now st hne
    unfold receiveMessageHandler
    rw [if_pos hne]
  · intro st
    exact ⟨rfl, rfl, rfl⟩
  · intro g st op hlt
    match op with
    | .receive g' m t =>
      simpa only [monStep, receiveMessageHandler_activeSessionId] using hlt
    | .start => exact Nat.lt_succ_of_lt hlt
    | .stop => exact Nat.lt_succ_of_lt hlt

/-- Witness for C3 at a concrete input: a handler that captured generation 1
is a no-op after `stopFeishuMonitor` advanced the counter to 2, and stays
retired across a further start. -/
theorem claim_C3_stale_session_witness :
    receiveMessageHandler 1 (some "m") 50
        (stopFeishuMonitor ⟨[("m", 10)], 1⟩) =
      (stopFeishuMonitor ⟨[("m", 10)], 1⟩, false) ∧
    (1 : Nat) < (monStep MonOp.start (stopFeishuMonitor ⟨[("m", 10)], 1⟩)).activeSessionId := by
  refine ⟨claim_C3_stale_session.1 1 (some "m") 50 _ (by decide), ?_⟩
  exact claim_C3_stale_session.2.2 1 (stopFeishuMonitor ⟨[("m", 10)], 1⟩)
    MonOp.start (by decide)

/-- Claim C9: dedup pruning is lazy.  An insertion that leaves the map at or
below 200 entries keeps every existing entry (pure append, no pruning); an
insertion that brings the size above 200 performs exactly one
`pruneProcessedMessages` pass over the appended map; an entry survives a
prune pass exactly when its age is within the TTL; and a previously-seen
identifier all of whose entries have outlived the TTL is, after such a
pruning insertion, absent from the map and eligible for reprocessing (a
fresh delivery of it forwards again). -/
theorem claim_C9_lazy_prune :
    (∀ (g : Nat) (m : String) (now : Nat) (st : MonitorState),
      g = st.activeSessionId → mapHas st.processedMessages m = false →
      st.processedMessages.length + 1 ≤ 200 →
      ((receiveMessageHandler g (some m) now st).1).processedMessages =
        st.processedMessages ++ [(m, now)]) ∧
    (∀ (g : Nat) (m : String) (now : Nat) (st : MonitorState),
      g = st.activeSessionId → mapHas st.processedMessages m = false →
      200 < st.processedMessages.length + 1 →
      ((receiveMessageHandler g (some m) now st).1).processedMessages =
        pruneProcessedMessages now (st.processedMessages ++ [(m, now)])) ∧
    (∀ (now : Nat) (msgs : List (String × Nat)) (m : String) (ts : Nat),
      (m, ts) ∈ pruneProcessedMessages now msgs ↔
        (m, ts) ∈ msgs ∧ now - ts ≤ DEDUP_TTL_MS) ∧
    (∀ (g : Nat) (m m0 : String) (now : Nat) (st : MonitorState),
      g = st.activeSessionId → mapHas st.processedMessages m = false →
      200 < st.processedMessages.length + 1 →
      (∀ ts : Nat, (m0, ts) ∈ st.processedMessages →
        DEDUP_TTL_MS < now - ts) →
      m ≠ m0 →
      mapHas ((receiveMessageHandler g (some m) now st).1).processedMessages
          m0 = false ∧
      ∀ t2 : Nat,
        (receiveMessageHandler st.activeSessionId (some m0) t2
            (receiveMessageHandler g (some m) now st).1).2 = true) := by
  have hset : ∀ (st : MonitorState) (m : String) (now : Nat),
      mapHas st.processedMessages m = false →
      mapSet st.processedMessages m now =
        st.processedMessages ++ [(m, now)] := by
    intro st m now hfresh
    unfold mapSet
    rw [if_neg (by simp [hfresh])]
  have hbase : ∀ (g : Nat) (m : String) (now : Nat) (st : MonitorState),
      g = st.activeSessionId → mapHas st.processedMessages m = false →
      ((receiveMessageHandler g (some m) now st).1).processedMessages =
        (if (st.processedMessages ++ [(m, now)]).length > 200 then
          pruneProcessedMessages now (st.processedMessages ++ [(m, now)])
        else st.processedMessages ++ [(m, now)]) := by
    intro g m now st hsess hfresh
    unfold receiveMessageHandler
    rw [if_neg (by omega)]
    simp only [hfresh]
    rw [if_neg (by simp)]
    simp only [hset st m now hfresh]
  refine ⟨?_, ?_, ?_, ?_⟩
  · intro g m now st hsess hfresh hsz
    rw [hbase g m now st hsess hfresh, if_neg (by simp; omega)]
  · intro g m now st hsess hfresh hsz
    rw [hbase g m now st hsess hfresh, if_pos (by simp; omega)]
  · intro now msgs m ts
    exact mem_pruneProcessedMessages
  · intro g m m0 now st hsess hfresh hsz hold hne
    have hmap := hbase g m now st hsess hfresh
    rw [if_pos (by simp; omega)] at hmap
    have hhas0 : mapHas
        ((receiveMessageHandler g (some m) now st).1).processedMessages m0 =
          false := by
      rw [hmap]
      simp only [mapHas, List.any_eq_false]
      intro e he
      rcases mem_pruneProcessedMessages.mp
        (by simpa using he) with ⟨hmem, hage⟩
      rcases List.mem_append.mp hmem with hmem | hmem
      · intro hkey
        have : e = (m0, e.2) := by
          cases e; simp_all [BEq.beq]
        rw [this] at hmem
        exact absurd hage (by have := hold e.2 hmem; omega)
      · intro hkey
        have : e = (m, now) := List.mem_singleton.mp hmem
        rw [this] at hkey
        exact hne (by simpa [BEq.beq] using hkey)
    refine ⟨hhas0, ?_⟩
    intro t2
    exact receive_fresh_forwards st.activeSessionId m0 t2
      (receiveMessageHandler g (some m) now st).1
      (receiveMessageHandler_activeSessionId g (some m) now st).symm hhas0

set_option maxRecDepth 8192 in
/-- Witness for C9 at a concrete input: with the map holding 200 stale
entries (timestamps 0, observed at `now` one hour + 1ms later), inserting a
fresh id prunes all of them, and the previously-seen `"0"` is afterwards
forwarded again. -/
theorem claim_C9_lazy_prune_witness :
    (((receiveMessageHandler 1 (some "small") 5
          ⟨[("a", 0)], 1⟩).1).processedMessages =
        [("a", 0), ("small", 5)]) ∧
    mapHas ((receiveMessageHandler 1 (some "fresh") 3600001
          ⟨(List.range 200).map (fun i => (toString i, 0)), 1⟩).1).processedMessages
        "0" = false ∧
    (receiveMessageHandler 1 (some "0") 3600002
        (receiveMessageHandler 1 (some "fresh") 3600001
          ⟨(List.range 200).map (fun i => (toString i, 0)), 1⟩).1).2 = true := by
  refine ⟨claim_C9_lazy_prune.1 1 "small" 5 ⟨[("a", 0)], 1⟩ rfl (by decide)
    (by decide), ?_, ?_⟩
  · exact (claim_C9_lazy_prune.2.2.2 1 "fresh" "0" 3600001
      ⟨(List.range 200).map (fun i => (toString i, 0)), 1⟩ rfl (by decide)
      (by decide)
      (by
        intro ts hts
        simp only [List.mem_map] at hts
        obtain ⟨i, _, hi⟩ := hts
        injection hi with h1 h2
        simp only [DEDUP_TTL_MS]
        omega)
      (by decide)).1
  · exact (claim_C9_lazy_prune.2.2.2 1 "fresh" "0" 3600001
      ⟨(List.range 200).map (fun i => (toString i, 0)), 1⟩ rfl (by decide)
      (by decide)
      (by
        intro ts hts
        simp only [List.mem_map] at hts
        obtain ⟨i, _, hi⟩ := hts
        injection hi with h1 h2
        simp only [DEDUP_TTL_MS]
        omega)
      (by decide)).2 3600002

/-! ## Helper lemmas: reply dispatcher -/

/-- A sample oracle environment for concrete evaluations: every network call
succeeds. -/
def sampleEnv : Env where
  now := 1000
  patchIntervalMs := 500
  showCursor := true
  sendCardResult := fun _ => some "mid0"
  updateCardOk := fun _ => true
  chunkText := fun t => [t]

/-- A sample oracle environment in which every card send and update
throws. -/
def failEnv : Env where
  now := 1000
  patchIntervalMs := 500
  showCursor := true
  sendCardResult := fun _ => none
  updateCardOk := fun _ => false
  chunkText := fun t => [t]

theorem patchCard_failed (env : Env) (isFinal : Bool) (st : DispState)
    (h : st.streamingFailed = true) : patchCard env isFinal st = st := by
  unfold patchCard
  simp [h]

theorem schedulePatch_fields (env : Env) (st : DispState) :
    (schedulePatch env st).streamingFailed = st.streamingFailed ∧
    (schedulePatch env st).cardMessageId = st.cardMessageId := by
  unfold schedulePatch
  split <;> exact ⟨rfl, rfl⟩

theorem deliverStandalone_fields (env : Env) (t : String) (st : DispState) :
    (deliverStandalone env t st).streamingFailed = st.streamingFailed ∧
    (deliverStandalone env t st).cardMessageId = st.cardMessageId ∧
    (deliverStandalone env t st).accumulatedText = st.accumulatedText ∧
    (deliverStandalone env t st).standaloneDelivered =
      st.standaloneDelivered := by
  unfold deliverStandalone
  split <;> exact ⟨rfl, rfl, rfl, rfl⟩

theorem doDeliverFinalReply_fields (env : Env) (st : DispState) :
    (doDeliverFinalReply env st).streamingFailed = st.streamingFailed ∧
    (doDeliverFinalReply env st).cardMessageId = st.cardMessageId ∧
    (doDeliverFinalReply env st).accumulatedText = st.accumulatedText := by
  unfold doDeliverFinalReply
  dsimp only
  split
  · exact ⟨rfl, rfl, rfl⟩
  · split
    · split
      · exact ⟨rfl, rfl, rfl⟩
      · split
        · exact ⟨(deliverStandalone_fields _ _ _).1,
            (deliverStandalone_fields _ _ _).2.1,
            (deliverStandalone_fields _ _ _).2.2.1⟩
        · exact ⟨rfl, rfl, rfl⟩
    · split
      · exact ⟨(deliverStandalone_fields _ _ _).1,
          (deliverStandalone_fields _ _ _).2.1,
          (deliverStandalone_fields _ _ _).2.2.1⟩
      · exact ⟨rfl, rfl, rfl⟩

theorem deliver_streamingFailed (env : Env) (t k : String) (st : DispState) :
    (deliver env t k st).streamingFailed = st.streamingFailed := by
  unfold deliver
  split
  · rfl
  · dsimp only
    split <;> split <;> split <;>
      first
        | rfl
        | exact (doDeliverFinalReply_fields _ _).1

theorem deliver_cardMessageId (env : Env) (t k : String) (st : DispState) :
    (deliver env t k st).cardMessageId = st.cardMessageId := by
  unfold deliver
  split
  · rfl
  · dsimp only
    split <;> split <;> split <;>
      first
        | rfl
        | exact (doDeliverFinalReply_fields _ _).2.1

theorem triggerThinkingUpdate_failed (env : Env) (st : DispState)
    (h : st.streamingFailed = true) :
    (triggerThinkingUpdate env st).streamingFailed = true ∧
    (triggerThinkingUpdate env st).cardMessageId = st.cardMessageId := by
  unfold triggerThinkingUpdate
  split
  · exact ⟨h, rfl⟩
  · dsimp only
    split
    · rw [patchCard_failed _ _ _ (by exact h)]
      exact ⟨h, rfl⟩
    · exact ⟨(schedulePatch_fields _ _).1.trans h, (schedulePatch_fields _ _).2⟩

theorem dispStep_failed (env : Env) (op : DispOp) (st : DispState)
    (hf : st.streamingFailed = true) :
    (dispStep env op st).streamingFailed = true ∧
    (dispStep env op st).cardMessageId = st.cardMessageId := by
  cases op with
  | deliver t k =>
    exact ⟨(deliver_streamingFailed env t k st).trans hf,
      deliver_cardMessageId env t k st⟩
  | reasoning text =>
    cases text with
    | none => exact ⟨hf, rfl⟩
    | some t =>
      simp only [dispStep, onReasoningStream]
      split
      · exact triggerThinkingUpdate_failed env _ (by exact hf)
      · exact ⟨hf, rfl⟩
  | agentEvent s p tid n e =>
    simp only [dispStep, onAgentEvent]
    split
    · split
      · exact triggerThinkingUpdate_failed env _ (by exact hf)
      · split
        · cases toolsGet st.activeTools tid with
          | none => exact triggerThinkingUpdate_failed env _ (by exact hf)
          | some entry => exact triggerThinkingUpdate_failed env _ (by exact hf)
        · exact ⟨hf, rfl⟩
    · exact ⟨hf, rfl⟩
  | timerFire =>
    simp only [dispStep, firePendingPatch]
    split
    · exact ⟨hf, rfl⟩
    · rw [if_neg (by simp [hf])]
      exact ⟨hf, rfl⟩
  | idle =>
    simp only [dispStep, onIdle, clearPendingPatch]
    split
    · exact ⟨(doDeliverFinalReply_fields _ _).1.trans hf,
        (doDeliverFinalReply_fields _ _).2.1⟩
    · exact ⟨hf, rfl⟩
  | markIdle =>
    simp only [dispStep, markDispatchIdle, clearPendingPatch]
    split
    · split
      · rw [patchCard_failed _ _ _ (by exact hf)]
        exact ⟨hf, rfl⟩
      · exact ⟨hf, rfl⟩
    · exact ⟨hf, rfl⟩

/-! ## Dispatcher claims -/

/-- Claim C10: a delivered payload whose text is empty or whitespace-only is
discarded entirely by the `deliver` callback — the whole reply render state,
including the pending timer, accumulated text and trace, is returned
unchanged and finalize is not triggered. -/
theorem claim_C10_blank_payload (env : Env) (text kind : String)
    (st : DispState) (h : isBlank text = true) :
    deliver env text kind st = st := by
  unfold deliver
  simp [h]

/-- Witness for C10 at a concrete input: a whitespace-only payload leaves a
mid-stream state untouched. -/
theorem claim_C10_blank_payload_witness :
    deliver sampleEnv "  \n " "final"
        { initDispState with accumulatedText := "X",
                             pendingPatchTimer := some 100 } =
      { initDispState with accumulatedText := "X",
                           pendingPatchTimer := some 100 } :=
  claim_C10_blank_payload sampleEnv "  \n " "final" _ (by decide)

/-- Claim C5: a non-final `patchCard` on a nonempty accumulated text that
contains a markdown table (per `hasMarkdownTable`, the code's detector for
an in-progress table block) is suppressed entirely — the state, and in
particular the network trace, is unchanged; a final patch is never
suppressed by this rule: whenever streaming has not failed, `patchCard
isFinal = true` issues exactly one network call. -/
theorem claim_C5_table_suppression :
    (∀ (env : Env) (st : DispState), st.accumulatedText ≠ "" →
      hasMarkdownTable st.accumulatedText = true →
      patchCard env false st = st) ∧
    (∀ (env : Env) (st : DispState), st.streamingFailed = false →
      (patchCard env true st).trace.length = st.trace.length + 1) := by
  constructor
  · intro env st hne htab
    unfold patchCard
    split
    · rfl
    · rw [if_pos (by simp [htab, hne])]
  · intro env st hok
    unfold patchCard
    rw [if_neg (by simp [hok]), if_neg (by simp)]
    dsimp only
    split
    · split <;> simp
    · split <;> simp

/-- Witness for C5 at a concrete input: with the unterminated table
`"|a|\n|-|"` accumulated, a non-final patch is a no-op, while a final patch
on a table-free state issues one call. -/
theorem claim_C5_table_suppression_witness :
    patchCard sampleEnv false
        { initDispState with accumulatedText := "|a|\n|-|" } =
      { initDispState with accumulatedText := "|a|\n|-|" } ∧
    (patchCard sampleEnv true
        { initDispState with accumulatedText := "done" }).trace.length =
      ({ initDispState with accumulatedText := "done" } : DispState).trace.length + 1 := by
  constructor
  · exact claim_C5_table_suppression.1 sampleEnv _ (by decide) (by decide)
  · exact claim_C5_table_suppression.2 sampleEnv _ (by decide)

/-- Claim C8: debouncing keeps at most one pending timer per reply — a
`schedulePatch` while a timer is pending is a no-op, and otherwise the armed
timer's delay is `max(0, patchIntervalMs − (now − lastPatchTime))`;
`patchIntervalMs` defaults to 500 ms when not configured; when the timer
fires it performs a non-final `patchCard` unless `streamingFailed` is
already set, in which case it only clears the timer slot. -/
theorem claim_C8_debounce :
    (∀ (env : Env) (st : DispState) (d : Int),
      st.pendingPatchTimer = some d → schedulePatch env st = st) ∧
    (∀ (env : Env) (st : DispState), st.pendingPatchTimer = none →
      (schedulePatch env st).pendingPatchTimer =
        some (max 0 ((env.patchIntervalMs : Int) -
          ((env.now : Int) - (st.lastPatchTime : Int))))) ∧
    resolvePatchIntervalMs none = 500 ∧
    (∀ (env : Env) (st : DispState) (d : Int),
      st.pendingPatchTimer = some d → st.streamingFailed = false →
      firePendingPatch env st =
        patchCard env false { st with pendingPatchTimer := none }) ∧
    (∀ (env : Env) (st : DispState) (d : Int),
      st.pendingPatchTimer = some d → st.streamingFailed = true →
      firePendingPatch env st = { st with pendingPatchTimer := none }) := by
  refine ⟨?_, ?_, rfl, ?_, ?_⟩
  · intro env st d h
    unfold schedulePatch
    rw [h]
  · intro env st h
    unfold schedulePatch
    rw [h]
    rfl
  · intro env st d h hok
    unfold firePendingPatch
    rw [h]
    simp [hok]
  · intro env st d h hfail
    unfold firePendingPatch
    rw [h]
    simp [hfail]

/-- Witness for C8 at concrete inputs: scheduling while a timer is pending
is a no-op; an idle reply at `now = 1000` with `lastPatchTime = 800` arms a
300 ms timer; and a fired timer on a failed stream only clears the slot. -/
theorem claim_C8_debounce_witness :
    schedulePatch sampleEnv { initDispState with pendingPatchTimer := some 7 } =
      { initDispState with pendingPatchTimer := some 7 } ∧
    (schedulePatch sampleEnv
        { initDispState with lastPatchTime := 800 }).pendingPatchTimer =
      some 300 ∧
    firePendingPatch sampleEnv
        { initDispState with pendingPatchTimer := some 7,
                             streamingFailed := true } =
      { initDispState with streamingFailed := true } := by
  refine ⟨claim_C8_debounce.1 sampleEnv _ 7 rfl, ?_, ?_⟩
  · have h := claim_C8_debounce.2.1 sampleEnv
      { initDispState with lastPatchTime := 800 } rfl
    rw [h]
    decide
  · exact claim_C8_debounce.2.2.2.2 sampleEnv _ 7 rfl rfl

/-- Claim C2: if the very first card creation throws (`sendCardFeishu`
inside `patchCard` with `cardMessageId` still null), `streamingFailed` is
set; once set, every later `patchCard` returns without any state change or
network call, and no dispatcher operation ever clears the flag or conjures a
card id — so every subsequent delivery for the reply takes the
standalone/plain fallback path; by contrast a failing `updateCardFeishu` on
an existing card leaves `streamingFailed` unset. -/
theorem claim_C2_creation_failure :
    (∀ (env : Env) (st : DispState) (isFinal : Bool),
      st.streamingFailed = false → st.cardMessageId = none →
      env.sendCardResult st.trace.length = none →
      (isFinal = true ∨ st.accumulatedText = "" ∨
        hasMarkdownTable st.accumulatedText = false) →
      (patchCard env isFinal st).streamingFailed = true) ∧
    (∀ (env : Env) (st : DispState) (isFinal : Bool),
      st.streamingFailed = true → patchCard env isFinal st = st) ∧
    (∀ (env : Env) (op : DispOp) (st : DispState),
      st.streamingFailed = true →
      (dispStep env op st).streamingFailed = true) ∧
    (∀ (env : Env) (op : DispOp) (st : DispState),
      st.streamingFailed = true → st.cardMessageId = none →
      (dispStep env op st).cardMessageId = none) ∧
    (∀ (env : Env) (st : DispState) (isFinal : Bool) (mid : String),
      st.cardMessageId = some mid → st.streamingFailed = false →
      (patchCard env isFinal st).streamingFailed = false) ∧
    (∀ (env : Env) (st : DispState),
      st.cardMessageId = none → isBlank st.accumulatedText = false →
      st.standaloneDelivered = false →
      NetCall.standaloneCard st.accumulatedText ∈
        (doDeliverFinalReply env st).trace) := by
  refine ⟨?_, ?_, ?_, ?_, ?_, ?_⟩
  · intro env st isFinal h1 h2 h3 hguard
    rcases hguard with hf | ha | ht
    · subst hf; simp [patchCard, h1, h2, h3]
    · simp [patchCard, h1, h2, h3, ha]
    · simp [patchCard, h1, h2, h3, ht]
  · intro env st isFinal h
    exact patchCard_failed env isFinal st h
  · intro env op st h
    exact (dispStep_failed env op st h).1
  · intro env op st h hc
    exact ((dispStep_failed env op st h).2).trans hc
  · intro env st isFinal mid hmid hok
    unfold patchCard
    rw [if_neg (by simp [hok])]
    split
    · exact hok
    · rw [hmid]
      dsimp only
      split <;> exact hok
  · intro env st hc ht hs
    unfold doDeliverFinalReply
    rw [if_neg (by simp [ht]), hc]
    dsimp only
    rw [if_pos (by simp [hs])]
    unfold deliverStandalone
    split
    · simp
    · simp

/-- Witness for C2 at concrete inputs: a failing first creation flips
`streamingFailed`; a later non-final patch in the failed state is the
identity; the failed state survives a further delivery and keeps
`cardMessageId` null; a failing update on an existing card does not set the
flag; and finalize without a card routes through standalone delivery. -/
theorem claim_C2_creation_failure_witness :
    (patchCard failEnv false
        { initDispState with accumulatedText := "hi" }).streamingFailed =
      true ∧
    patchCard failEnv false
        { initDispState with streamingFailed := true } =
      { initDispState with streamingFailed := true } ∧
    (dispStep failEnv (DispOp.deliver "more" "append")
        { initDispState with streamingFailed := true }).streamingFailed =
      true ∧
    (dispStep failEnv (DispOp.deliver "more" "append")
        { initDispState with streamingFailed := true }).cardMessageId =
      none ∧
    (patchCard failEnv false
        { initDispState with cardMessageId := some "mid1",
                             accumulatedText := "hi" }).streamingFailed =
      false ∧
    NetCall.standaloneCard "hi" ∈
      (doDeliverFinalReply failEnv
        { initDispState with accumulatedText := "hi" }).trace := by
  refine ⟨?_, ?_, ?_, ?_, ?_, ?_⟩
  · exact claim_C2_creation_failure.1 failEnv _ false rfl rfl rfl
      (Or.inr (Or.inr (by decide)))
  · exact claim_C2_creation_failure.2.1 failEnv _ false rfl
  · exact claim_C2_creation_failure.2.2.1 failEnv _ _ rfl
  · exact claim_C2_creation_failure.2.2.2.1 failEnv _ _ rfl rfl
  · exact claim_C2_creation_failure.2.2.2.2.1 failEnv _ false "mid1" rfl rfl
  · exact claim_C2_creation_failure.2.2.2.2.2 failEnv _ rfl (by decide) rfl

/-- Claim C4 as stated is false on the code: `onReasoningStream` assigns
`thinkingText = payload.text` before calling `triggerThinkingUpdate`, which
is where the `thinkingStopped` gate lives — so after `thinkingStopped` is
set, a reasoning fragment still overwrites the stored snapshot.  At this
concrete input the snapshot changes from `some "old"` to `some "new"`. -/
theorem claim_C4_counterexample :
    ({ initDispState with thinkingStopped := true,
                          thinkingText := some "old" } : DispState).thinkingStopped
        = true ∧
    (onReasoningStream sampleEnv (some "new")
        { initDispState with thinkingStopped := true,
                             thinkingText := some "old" }).thinkingText ≠
      some "old" := by
  exact ⟨rfl, by decide⟩

/-- Claim C4 (amended): once the one-way flag `thinkingStopped` is set, a
reasoning-fragment callback with non-empty text applies no thinking update —
no patch is issued or scheduled and no other state changes — except that the
`thinkingText` snapshot itself is still overwritten (the code stores the
snapshot before consulting the flag). -/
theorem claim_C4_stopped_reasoning (env : Env) (st : DispState) (t : String)
    (hstop : st.thinkingStopped = true) (ht : t ≠ "") :
    onReasoningStream env (some t) st = { st with thinkingText := some t } := by
  unfold onReasoningStream triggerThinkingUpdate
  simp [hstop, beq_eq_false_iff_ne.mpr ht]

/-- Witness for the amended C4 at a concrete input. -/
theorem claim_C4_stopped_reasoning_witness :
    onReasoningStream sampleEnv (some "more")
        { initDispState with thinkingStopped := true } =
      { initDispState with thinkingStopped := true,
                           thinkingText := some "more" } :=
  claim_C4_stopped_reasoning sampleEnv _ "more" rfl (by decide)

/-! ## Standalone-delivery accounting (claim C6) -/

/-- Is this network call the card send of `deliverStandalone`? -/
def isStandaloneCall : NetCall → Bool
  | .standaloneCard _ => true
  | _ => false

/-- Number of standalone-fallback card sends in a trace. -/
def standaloneCount (tr : List NetCall) : Nat :=
  (tr.filter isStandaloneCall).length

/-- Accounting potential: standalone sends so far plus the one still allowed
by the `standaloneDelivered` guard. -/
def standalonePotential (st : DispState) : Nat :=
  standaloneCount st.trace + (if st.standaloneDelivered then 0 else 1)

theorem standaloneCount_append (a b : List NetCall) :
    standaloneCount (a ++ b) = standaloneCount a + standaloneCount b := by
  simp [standaloneCount, List.filter_append]

theorem standaloneCount_sendText (chunks : List String) :
    standaloneCount (chunks.map NetCall.sendText) = 0 := by
  induction chunks with
  | nil => rfl
  | cons c cs ih =>
    simp only [standaloneCount, List.map_cons, List.filter_cons,
      isStandaloneCall, Bool.false_eq_true, if_false]
    exact ih

theorem standaloneCount_updateCard (m : String) (r : Option String) :
    standaloneCount [NetCall.updateCard m r] = 0 := rfl

theorem deliverStandalone_standaloneCount (env : Env) (t : String)
    (st : DispState) :
    standaloneCount (deliverStandalone env t st).trace =
      standaloneCount st.trace + 1 := by
  unfold deliverStandalone
  split
  · simp [standaloneCount_append, standaloneCount, List.filter_cons,
      isStandaloneCall]
  · simp [standaloneCount_append, standaloneCount_sendText, standaloneCount,
      List.filter_cons, isStandaloneCall]

theorem deliverStandalone_standaloneDelivered (env : Env) (t : String)
    (st : DispState) :
    (deliverStandalone env t st).standaloneDelivered =
      st.standaloneDelivered :=
  (deliverStandalone_fields env t st).2.2.2

theorem doDeliverFinalReply_potential (env : Env) (st : DispState) :
    standalonePotential (doDeliverFinalReply env st) =
      standalonePotential st := by
  unfold doDeliverFinalReply
  dsimp only
  split
  · rfl
  · split
    · split
      · simp [standalonePotential, standaloneCount_append,
          standaloneCount_updateCard]
      · split
        · rename_i hsd
          simp only [Bool.not_eq_true'] at hsd
          simp [standalonePotential, deliverStandalone_standaloneCount,
            deliverStandalone_standaloneDelivered, standaloneCount_append,
            standaloneCount_updateCard, hsd]
        · rename_i hsd
          simp only [Bool.not_eq_true', Bool.not_eq_false] at hsd
          simp [standalonePotential, standaloneCount_append,
            standaloneCount_updateCard, hsd]
    · split
      · rename_i hsd
        simp only [Bool.not_eq_true'] at hsd
        simp [standalonePotential, deliverStandalone_standaloneCount,
          deliverStandalone_standaloneDelivered, hsd]
      · rfl

/-- Claim C6: finalize is idempotent with respect to outbound messages.  On
blank accumulated text `doDeliverFinalReply` is a complete no-op; it always
preserves the standalone-delivery potential (each standalone send consumes
the single allowance of the `standaloneDelivered` guard); hence two
finalize calls on a reply that has not yet delivered standalone add at most
one standalone send in total. -/
theorem claim_C6_finalize_idempotent :
    (∀ (env : Env) (st : DispState), isBlank st.accumulatedText = true →
      doDeliverFinalReply env st = st) ∧
    (∀ (env : Env) (st : DispState),
      standalonePotential (doDeliverFinalReply env st) =
        standalonePotential st) ∧
    (∀ (env1 env2 : Env) (st : DispState), st.standaloneDelivered = false →
      standaloneCount
          ((doDeliverFinalReply env2 (doDeliverFinalReply env1 st)).trace) ≤
        standaloneCount st.trace + 1) := by
  refine ⟨?_, doDeliverFinalReply_potential, ?_⟩
  · intro env st h
    unfold doDeliverFinalReply
    simp [h]
  · intro env1 env2 st hsd
    have h1 : standaloneCount
        ((doDeliverFinalReply env2 (doDeliverFinalReply env1 st)).trace) ≤
        standalonePotential
          (doDeliverFinalReply env2 (doDeliverFinalReply env1 st)) :=
      Nat.le_add_right _ _
    have h2 : standalonePotential
        (doDeliverFinalReply env2 (doDeliverFinalReply env1 st)) =
        standalonePotential st := by
      rw [doDeliverFinalReply_potential, doDeliverFinalReply_potential]
    have h3 : standalonePotential st = standaloneCount st.trace + 1 := by
      simp [standalonePotential, hsd]
    omega

/-- Witness for C6 at concrete inputs: finalize on an empty reply is a
no-op, and double finalize on a card-less reply (with every send failing,
exercising the chunked fallback) performs at most one standalone
delivery. -/
theorem claim_C6_finalize_idempotent_witness :
    doDeliverFinalReply sampleEnv initDispState = initDispState ∧
    standaloneCount
        ((doDeliverFinalReply failEnv (doDeliverFinalReply failEnv
          { initDispState with accumulatedText := "hi" })).trace) ≤
      standaloneCount
        ({ initDispState with accumulatedText := "hi" } : DispState).trace
        + 1 := by
  exact ⟨claim_C6_finalize_idempotent.1 sampleEnv initDispState (by decide),
    claim_C6_finalize_idempotent.2.2 failEnv failEnv _ rfl⟩

/-! ## Fragment joining (claim C7) -/

/-- One step of the spec's join rule between the accumulated text and the
next fragment: insert a newline exactly when the earlier accumulated text
does not end with a newline and the new fragment does not start with one. -/
def specJoinStep (acc t : String) : String :=
  if endsWithNewline acc || startsWithNewline t then acc ++ t
  else acc ++ "\n" ++ t

/-- Modelled from the spec: "`accumulatedText`: ordered concatenation of all
finalized answer fragments received so far, joined with an inserted newline
when neither side already ends/starts with one."  The rule applies between
consecutive fragments; the first fragment is taken as-is. -/
def specJoinFragments : List String → String
  | [] => ""
  | t :: ts => ts.foldl specJoinStep t

/-- Run a sequence of `deliver` callbacks `(env, text, kind)`. -/
def deliverSeq (steps : List (Env × String × String)) (st : DispState) :
    DispState :=
  steps.foldl (fun s e => deliver e.1 e.2.1 e.2.2 s) st

theorem string_empty_append (s : String) : "" ++ s = s := by
  cases s
  rfl

theorem string_append_ne_empty (a t : String) (h : t ≠ "") : a ++ t ≠ "" := by
  intro hc
  apply h
  apply String.ext
  have hd : (a ++ t).data = [] := by rw [hc]
  rw [String.data_append] at hd
  exact (List.append_eq_nil.mp hd).2

theorem isBlank_false_ne_empty {t : String} (h : isBlank t = false) :
    t ≠ "" := by
  intro hc
  rw [hc] at h
  exact absurd h (by decide)

theorem deliver_accumulatedText (env : Env) (t k : String) (st : DispState)
    (h : isBlank t = false) :
    (deliver env t k st).accumulatedText =
      (if !(st.accumulatedText == "") &&
          !(endsWithNewline st.accumulatedText) && !(startsWithNewline t)
       then st.accumulatedText ++ "\n" ++ t
       else st.accumulatedText ++ t) := by
  unfold deliver
  rw [if_neg (by simp [h])]
  cases hstop : st.thinkingStopped <;>
  cases hjoin : (!(st.accumulatedText == "") &&
      !(endsWithNewline st.accumulatedText) && !(startsWithNewline t)) <;>
  cases hfin : (k == "final") <;>
    simp only [hstop, hjoin, hfin, Bool.not_true, Bool.not_false,
      if_true, if_false, Bool.false_eq_true, Bool.true_eq_false] <;>
    first
      | rfl
      | exact (doDeliverFinalReply_fields _ _).2.2

theorem join_agree (a t : String) (ha : a ≠ "") :
    (if !(a == "") && !(endsWithNewline a) && !(startsWithNewline t)
     then a ++ "\n" ++ t else a ++ t) = specJoinStep a t := by
  have ha' : (a == "") = false := beq_eq_false_iff_ne.mpr ha
  unfold specJoinStep
  cases he : endsWithNewline a <;> cases hs : startsWithNewline t <;>
    simp [ha', he, hs]

theorem deliverSeq_accumulatedText
    (steps : List (Env × String × String)) (st : DispState)
    (hall : ∀ s ∈ steps, isBlank s.2.1 = false)
    (ha : st.accumulatedText ≠ "") :
    (deliverSeq steps st).accumulatedText =
      steps.foldl (fun a s => specJoinStep a s.2.1) st.accumulatedText := by
  induction steps generalizing st with
  | nil => rfl
  | cons s rest ih =>
    have hs : isBlank s.2.1 = false := hall s (List.mem_cons_self _ _)
    have hacc : (deliver s.1 s.2.1 s.2.2 st).accumulatedText =
        specJoinStep st.accumulatedText s.2.1 := by
      rw [deliver_accumulatedText s.1 s.2.1 s.2.2 st hs]
      exact join_agree _ _ ha
    have hne : (deliver s.1 s.2.1 s.2.2 st).accumulatedText ≠ "" := by
      rw [hacc]
      unfold specJoinStep
      split
      · exact string_append_ne_empty _ _ (isBlank_false_ne_empty hs)
      · exact string_append_ne_empty _ _ (isBlank_false_ne_empty hs)
    have := ih (deliver s.1 s.2.1 s.2.2 st)
      (fun e he => hall e (List.mem_cons_of_mem _ he)) hne
    rw [show deliverSeq (s :: rest) st =
        deliverSeq rest (deliver s.1 s.2.1 s.2.2 st) from rfl, this, hacc]
    rfl

/-- Claim C7: over any sequence of non-blank delivered fragments starting
from a fresh reply, `accumulatedText` is exactly the spec's join — the
ordered concatenation with a newline inserted between consecutive fragments
exactly when the earlier accumulated text does not end with a newline and
the new fragment does not start with one.  In particular two final
fragments `"X"` then `"Y"` on a reply with an existing card accumulate to
`"X\nY"`, and the second finalize delivers that body in its full-replace
update. -/
theorem claim_C7_fragment_join :
    (∀ steps : List (Env × String × String),
      (∀ s ∈ steps, isBlank s.2.1 = false) →
      (deliverSeq steps initDispState).accumulatedText =
        specJoinFragments (steps.map (fun s => s.2.1))) ∧
    ((deliver sampleEnv "Y" "final" (deliver sampleEnv "X" "final"
        { initDispState with cardMessageId := some "card1" })).accumulatedText
        = "X\nY" ∧
      (deliver sampleEnv "Y" "final" (deliver sampleEnv "X" "final"
        { initDispState with cardMessageId := some "card1" })).trace =
        [NetCall.updateCard "card1" (some "X"),
         NetCall.updateCard "card1" (some "X\nY")]) := by
  constructor
  · intro steps hall
    match steps with
    | [] => rfl
    | s :: rest =>
      have hs : isBlank s.2.1 = false := hall s (List.mem_cons_self _ _)
      have hfirst : (deliver s.1 s.2.1 s.2.2 initDispState).accumulatedText =
          s.2.1 := by
        rw [deliver_accumulatedText s.1 s.2.1 s.2.2 initDispState hs]
        rw [if_neg (by simp [initDispState])]
        exact string_empty_append _
      have hne : (deliver s.1 s.2.1 s.2.2 initDispState).accumulatedText ≠
          "" := by
        rw [hfirst]
        exact isBlank_false_ne_empty hs
      have := deliverSeq_accumulatedText rest
        (deliver s.1 s.2.1 s.2.2 initDispState)
        (fun e he => hall e (List.mem_cons_of_mem _ he)) hne
      rw [show deliverSeq (s :: rest) initDispState =
          deliverSeq rest (deliver s.1 s.2.1 s.2.2 initDispState) from rfl,
        this, hfirst]
      simp [specJoinFragments, List.foldl_map]
  · exact ⟨by decide, by decide⟩

/-- Witness for C7 at a concrete input: the fragments `"X"` then `"Y"`
(neither carrying a boundary newline) join to `"X\nY"`. -/
theorem claim_C7_fragment_join_witness :
    (deliverSeq [(sampleEnv, "X", "append"), (sampleEnv, "Y", "final")]
        initDispState).accumulatedText =
      specJoinFragments ["X", "Y"] :=
  claim_C7_fragment_join.1
    [(sampleEnv, "X", "append"), (sampleEnv, "Y", "final")] (by decide)

end Feishu
